import Mathlib

/-!
# Verification of the `try-and-catch` library (src/src/index.ts)

A shallow embedding of the TypeScript sources of the `try-and-catch`
package.  JavaScript values that can be thrown or returned are modelled by
the inductive type `JSVal`; `Error` objects carry an `id` field modelling
object identity.  A callable's behaviour is its settlement: either a value
(`Except.ok`) or a thrown value (`Except.error`).  Asynchronous settlement
is modelled the same way, with an explicit flag recording whether the
wrapper handed back a promise.  Wall-clock time is a virtual millisecond
counter: each attempt contributes its duration and each timer wait
contributes its effective delay.
-/

set_option autoImplicit false

namespace TryCatch

/-- A JavaScript `Error` object: `id` models the object's identity (two
`Error`s created by distinct `new Error(...)` calls have distinct ids). -/
structure JSError where
  id : Nat
  name : String
  message : String
  stack : String
deriving Repr, DecidableEq

/-- A JavaScript value that can be returned or thrown.  `errObj` is an
object for which `instanceof Error` holds; `plainObj` is a plain object
(field values restricted to strings), for which `instanceof Error` is
false even when it exposes `message`/`name`/`stack` fields. -/
inductive JSVal where
  | num (n : Int)
  | str (s : String)
  | boolV (b : Bool)
  | nullV
  | undef
  | errObj (e : JSError)
  | plainObj (fields : List (String × String))
deriving Repr, DecidableEq

/-- Field lookup on a plain object. -/
def lookupField : List (String × String) → String → Option String
  | [], _ => none
  | (k, v) :: rest, key => if k = key then some v else lookupField rest key

/-- `String(v)`: JavaScript string conversion of a value.  A plain object
converts via the default `Object.prototype.toString`, an `Error` via
`Error.prototype.toString`. -/
def jsToString : JSVal → String
  | .num n => toString n
  | .str s => s
  | .boolV b => if b then "true" else "false"
  | .nullV => "null"
  | .undef => "undefined"
  | .errObj e =>
      if e.name = "" then e.message
      else if e.message = "" then e.name
      else e.name ++ ": " ++ e.message
  | .plainObj _ => "[object Object]"

/-- The `v instanceof Error` test. -/
def isErrorInstance : JSVal → Bool
  | .errObj _ => true
  | _ => false

/-- Does the value expose `message`, `name` and `stack` fields (the
duck-typed notion of "error-shaped" used by the specification)? -/
def exposesErrorFields : JSVal → Bool
  | .errObj _ => true
  | .plainObj fs =>
      (lookupField fs "message").isSome && (lookupField fs "name").isSome &&
        (lookupField fs "stack").isSome
  | _ => false

/-- `error instanceof Error ? error : new Error(String(error))`
(src/src/index.ts:79-80 and the analogous catch clauses).  An `Error`
instance is passed through with its identity; anything else produces a
fresh `Error` whose message is the string conversion of the thrown value.
Engine-synthesized errors are modelled with `id = 0`. -/
def normalizeError (v : JSVal) : JSError :=
  match v with
  | .errObj e => e
  | v => { id := 0, name := "Error", message := jsToString v, stack := "" }

deriving instance DecidableEq for Except

/-- What a callable hands back when it does not throw: a plain value, or a
`Promise` that later settles (`instanceof Promise` distinguishes them,
src/src/index.ts:49). -/
inductive FnRet where
  | val (v : JSVal)
  | prom (p : Except JSVal JSVal)
deriving Repr, DecidableEq

/-- What a cleanup callback hands back when it does not throw
synchronously: `undefined` (or any non-promise), or a `Promise` that later
resolves or rejects. -/
inductive CleanupRet where
  | unitRet
  | promRet (o : Except JSVal Unit)
deriving Repr, DecidableEq

/-- Behaviour of a cleanup callback: a synchronous throw, or a return. -/
abbrev CleanupBeh := Except JSVal CleanupRet

/-- Observable outcome of one `tryAndCatch`/`tryAndCatchAsync` call.
`isPromise` records whether the call handed back a promise; `warnings`
are the payloads of `console.warn("Cleanup failed:", e)` (the side
channel); `unhandled` collects rejections of promises that were dropped
without being awaited (unhandled rejections). -/
structure TACOut where
  isPromise : Bool
  result : Option JSVal
  error : Option JSError
  warnings : List JSVal
  cleanupRan : Bool
  unhandled : List JSVal
deriving Repr, DecidableEq

/-- The synchronous cleanup call `try { onFinally() } catch (e) {
console.warn("Cleanup failed:", e) }` (src/src/index.ts:68-74, 82-88).
The callback's return value is discarded: a returned promise is dropped
without being awaited, so a later rejection of it becomes an unhandled
rejection.  Yields `(warnings, ran, unhandled)`. -/
def runCleanupSync (onFinally : Option CleanupBeh) :
    List JSVal × Bool × List JSVal :=
  match onFinally with
  | none => ([], false, [])
  | some (.error e) => ([e], true, [])
  | some (.ok .unitRet) => ([], true, [])
  | some (.ok (.promRet (.ok ()))) => ([], true, [])
  | some (.ok (.promRet (.error e))) => ([], true, [e])

/-- The awaited cleanup call `try { await onFinally() } catch (e) {
console.warn("Cleanup failed:", e) }` (src/src/index.ts:56-64, 117-123).
Here a returned promise is awaited, so its rejection is caught and
warned about.  Yields `(warnings, ran)`. -/
def runCleanupAwait (onFinally : Option CleanupBeh) : List JSVal × Bool :=
  match onFinally with
  | none => ([], false)
  | some (.error e) => ([e], true)
  | some (.ok .unitRet) => ([], true)
  | some (.ok (.promRet (.ok ()))) => ([], true)
  | some (.ok (.promRet (.error e))) => ([e], true)

/-- `tryAndCatch` (src/src/index.ts:42-92).  The callable either throws
synchronously (`.error thrown`) or returns (`.ok ret`).  If the return
value is a promise the wrapper hands back a promise that settles after
the awaited cleanup; otherwise the cleanup runs synchronously (its
returned promise, if any, is fire-and-forget) and a plain record is
handed back.  Every branch produces a `TACOut`: nothing escapes. -/
def tryAndCatch (fn : Except JSVal FnRet) (onFinally : Option CleanupBeh) :
    TACOut :=
  match fn with
  | .ok (.prom p) =>
      let res : Option JSVal × Option JSError :=
        match p with
        | .ok v => (some v, none)
        | .error e => (none, some (normalizeError e))
      let c := runCleanupAwait onFinally
      { isPromise := true, result := res.1, error := res.2,
        warnings := c.1, cleanupRan := c.2, unhandled := [] }
  | .ok (.val v) =>
      let c := runCleanupSync onFinally
      { isPromise := false, result := some v, error := none,
        warnings := c.1, cleanupRan := c.2.1, unhandled := c.2.2 }
  | .error thrown =>
      let finalError := normalizeError thrown
      let c := runCleanupSync onFinally
      { isPromise := false, result := none, error := some finalError,
        warnings := c.1, cleanupRan := c.2.1, unhandled := c.2.2 }

/-- `tryAndCatchAsync` (src/src/index.ts:104-125).  `await fn()` settles
either with a value or by throwing (a synchronous throw and a rejected
promise are indistinguishable after `await`); the `finally` block awaits
the cleanup and catches its failure with a warning. -/
def tryAndCatchAsync (fn : Except JSVal JSVal)
    (onFinally : Option CleanupBeh) : TACOut :=
  let c := runCleanupAwait onFinally
  match fn with
  | .ok v =>
      { isPromise := true, result := some v, error := none,
        warnings := c.1, cleanupRan := c.2, unhandled := [] }
  | .error thrown =>
      { isPromise := true, result := none,
        error := some (normalizeError thrown),
        warnings := c.1, cleanupRan := c.2, unhandled := [] }

/-- Behaviour of one call to an asynchronous callable inside the retry
engine: how it settles (`res`) and how many virtual milliseconds it takes
to settle (`dur`). -/
structure AttemptOutcome where
  res : Except JSVal JSVal
  dur : Nat
deriving Repr, DecidableEq

/-- `RetryOptions` (src/src/index.ts:19-24).  `delay` is a number or an
attempt-indexed function, defaulting to `1000` when absent; `shouldRetry`
defaults to `() => true`; `timeout` is the per-attempt timeout, skipped
when absent or `0` (falsy). -/
structure RetryOptions where
  maxRetries : Int
  delay : Option (Sum Int (Nat → Int)) := none
  shouldRetry : Option (JSError → Bool) := none
  timeout : Option Nat := none

/-- The delay before the retry following attempt index `attempt`
(src/src/index.ts:196): `typeof delay === "function" ? delay(attempt) :
delay`, with the destructuring default `1000`. -/
def delayOf (opts : RetryOptions) (attempt : Nat) : Int :=
  match opts.delay with
  | none => 1000
  | some (.inl d) => d
  | some (.inr f) => f attempt

/-- The retry predicate with its default (src/src/index.ts:163). -/
def shouldRetryEval (opts : RetryOptions) (e : JSError) : Bool :=
  match opts.shouldRetry with
  | none => true
  | some p => p e

/-- One attempt, optionally raced against the per-attempt timeout
(src/src/index.ts:173-182).  `if (timeout)` is a JavaScript truthiness
test, so `0` disables the race.  The callable wins the race when it
settles strictly before the timer fires; otherwise the attempt settles at
`t` with the synthesized `new Error("Operation timeout")`.  Yields the
settlement and the elapsed milliseconds. -/
def attemptSettle (opts : RetryOptions) (fn : Nat → AttemptOutcome)
    (i : Nat) : Except JSVal JSVal × Nat :=
  let a := fn i
  match opts.timeout with
  | some t =>
      if 0 < t then
        if a.dur < t then (a.res, a.dur)
        else (.error (.errObj ⟨0, "Error", "Operation timeout", ""⟩), t)
      else (a.res, a.dur)
  | none => (a.res, a.dur)

/-- `RetryResult` (src/src/index.ts:12-16). -/
structure RetryResultR where
  result : Option JSVal
  error : Option JSError
  attempts : Nat
  errors : List JSError
  totalTime : Nat
deriving Repr, DecidableEq

/-- Full observable behaviour of one `tryAndCatchWithRetry` call: its
settlement (`.error` when an exception escapes, i.e. the returned promise
rejects), the number of calls made to the callable, the delays requested
from `setTimeout`, and the effective wait durations the host timer
delivers. -/
structure RetryRun where
  out : Except JSError RetryResultR
  calls : Nat
  reqWaits : List Int
  effWaits : List Int
deriving Repr, DecidableEq

/-- The error thrown by the unreachable-by-design fallthrough
`throw new Error("Retry logic error")` (src/src/index.ts:210). -/
def retryLogicError : JSError := ⟨0, "Error", "Retry logic error", ""⟩

/-- Wrapping of a recursive retry run by one earlier failed attempt: the
attempt adds one call and one wait (requested delay `d`, effective wait
`max 0 d` once the host timer clamps). -/
def retryStep (d : Int) (rest : RetryRun) : RetryRun :=
  ⟨rest.out, rest.calls + 1, d :: rest.reqWaits, max 0 d :: rest.effWaits⟩

/-- The loop body of `tryAndCatchWithRetry` (src/src/index.ts:169-208).
`attempt` is the 0-based loop counter; `remaining` is the number of loop
iterations the `for (attempt = 0; attempt <= maxRetries; attempt++)`
header still allows, namely `(maxRetries + 1).toNat - attempt` at entry;
`errors` and `clock` accumulate the error history and the virtual time
(`Date.now() - startTime`).  When `remaining` is `0` the loop exits and
the fallthrough `throw` fires.  A requested delay `d` is handed to
`setTimeout`, which clamps negative delays, so the effective wait is
`max 0 d` and the clock advances by `d.toNat`. -/
def retryGo (fn : Nat → AttemptOutcome) (opts : RetryOptions) :
    Nat → Nat → List JSError → Nat → RetryRun
  | _, 0, _, _ => ⟨.error retryLogicError, 0, [], []⟩
  | attempt, r + 1, errors, clock =>
      match (attemptSettle opts fn attempt).1 with
      | .ok v =>
          ⟨.ok ⟨some v, none, attempt + 1, errors,
            clock + (attemptSettle opts fn attempt).2⟩, 1, [], []⟩
      | .error thrown =>
          if (attempt : Int) < opts.maxRetries ∧
              shouldRetryEval opts (normalizeError thrown) then
            retryStep (delayOf opts attempt)
              (retryGo fn opts (attempt + 1) r
                (errors ++ [normalizeError thrown])
                (clock + (attemptSettle opts fn attempt).2 +
                  (delayOf opts attempt).toNat))
          else
            ⟨.ok ⟨none, some (normalizeError thrown), attempt + 1,
              errors ++ [normalizeError thrown],
              clock + (attemptSettle opts fn attempt).2⟩, 1, [], []⟩

/-- `tryAndCatchWithRetry` (src/src/index.ts:156-211). -/
def tryAndCatchWithRetry (fn : Nat → AttemptOutcome)
    (opts : RetryOptions) : RetryRun :=
  retryGo fn opts 0 (opts.maxRetries + 1).toNat [] 0

/-- Observable behaviour of one `withRetry` call: its settlement (`.ok`
a value, `.error` a rejection of the returned promise), the number of
calls made, and the waits between attempts. -/
structure WithRetryRun where
  out : Except JSError JSVal
  calls : Nat
  waits : List Int
deriving Repr, DecidableEq

/-- The loop of `withRetry` (src/src/index.ts:138-147): `fuel` is the
number of retries still allowed (`maxRetries - attempt`).  On a failure
with no fuel left the loop exits and `throw lastError!` re-throws the
normalized error of the last attempt. -/
def withRetryGo (fn : Nat → AttemptOutcome) (delayMs : Int) :
    Nat → Nat → WithRetryRun
  | attempt, fuel =>
      match (fn attempt).res, fuel with
      | .ok v, _ => ⟨.ok v, 1, []⟩
      | .error t, 0 => ⟨.error (normalizeError t), 1, []⟩
      | .error _, f + 1 =>
          let rest := withRetryGo fn delayMs (attempt + 1) f
          ⟨rest.out, rest.calls + 1, delayMs :: rest.waits⟩

/-- `withRetry` (src/src/index.ts:131-150): resolves with the callable's
value, or re-throws (rejects with) the last error once `maxRetries`
retries have been consumed. -/
def withRetry (fn : Nat → AttemptOutcome) (maxRetries : Nat)
    (delayMs : Int) : WithRetryRun :=
  withRetryGo fn delayMs 0 maxRetries

/-- Is `needle` a contiguous sublist of the second argument? -/
def containsSub (needle : List Char) : List Char → Bool
  | [] => needle.isEmpty
  | c :: t => needle.isPrefixOf (c :: t) || containsSub needle t

/-- Case-insensitive substring test: models `/pat/i.test(s)` for a
literal pattern `pat` given in lower case. -/
def testCI (s pat : String) : Bool :=
  containsSub pat.toList (s.toList.map Char.toLower)

/-- `ErrorTypes.isNetworkError` (src/src/index.ts:215-216):
`/network|fetch|request|connection/i.test(error.message)`. -/
def isNetworkError (e : JSError) : Bool :=
  testCI e.message "network" || testCI e.message "fetch" ||
    testCI e.message "request" || testCI e.message "connection"

/-- `ErrorTypes.isTimeoutError` (src/src/index.ts:217):
`/timeout|timed out/i.test(error.message)`. -/
def isTimeoutError (e : JSError) : Bool :=
  testCI e.message "timeout" || testCI e.message "timed out"

/-- `ErrorTypes.isRetryable` (src/src/index.ts:218-219). -/
def isRetryable (e : JSError) : Bool :=
  isNetworkError e || isTimeoutError e

/-- `RetryStrategies.exponentialBackoff` (src/src/index.ts:223-226):
`Math.min(baseMs * Math.pow(2, attempt) + Math.random() * 1000, maxMs)`.
The call to `Math.random()` is modelled by the parameter `r`, which the
runtime draws from `[0, 1)`; arithmetic is exact over `ℚ`. -/
def exponentialBackoff (baseMs maxMs : ℚ) (r : ℚ) (attempt : Nat) : ℚ :=
  min (baseMs * 2 ^ attempt + r * 1000) maxMs

/-- `RetryStrategies.linearBackoff` (src/src/index.ts:227-230). -/
def linearBackoff (delayMs : ℚ) (attempt : Nat) : ℚ :=
  delayMs * (attempt + 1)

/-- `RetryStrategies.fixedDelay` (src/src/index.ts:231-234). -/
def fixedDelay (delayMs : ℚ) : ℚ :=
  delayMs

/-! ### Helper descriptions of retry traces -/

/-- The error history produced by `k` consecutive failing calls starting
at call index `attempt`, when call `attempt + j` throws `ts (attempt + j)`. -/
def errsFrom (ts : Nat → JSVal) (attempt : Nat) : Nat → List JSError
  | 0 => []
  | k + 1 => normalizeError (ts attempt) :: errsFrom ts (attempt + 1) k

/-- The delays requested for the `k` waits following `k` consecutive
failing calls starting at call index `attempt`. -/
def waitsFrom (opts : RetryOptions) (attempt : Nat) : Nat → List Int
  | 0 => []
  | k + 1 => delayOf opts attempt :: waitsFrom opts (attempt + 1) k

/-- The `totalTime` field of a retry run's outcome (`0` when the run
threw instead of returning a result). -/
def totalTimeOf (run : RetryRun) : Nat :=
  match run.out with
  | .ok res => res.totalTime
  | .error _ => 0

/-- A callable that fails on every call, throwing the string `"x"`,
settling instantly. -/
def alwaysFailFn : Nat → AttemptOutcome := fun _ => ⟨.error (.str "x"), 0⟩

/-- The callable of the spec's concrete retry scenario: fails with
`"A"`, then `"B"`, then resolves with `42`, each call settling
instantly. -/
def fnAB : Nat → AttemptOutcome := fun i =>
  if i = 0 then ⟨.error (.str "A"), 0⟩
  else if i = 1 then ⟨.error (.str "B"), 0⟩
  else ⟨.ok (.num 42), 0⟩

/-- A thrown plain object that duck-types as error-shaped: it exposes
`message`, `name` and `stack` fields but is not `instanceof Error`. -/
def duckVal : JSVal := .plainObj [("message", "boom"), ("name", "Error"), ("stack", "s")]

/-! ### Claim theorems -/

/-- C1: for every callable that throws synchronously, `tryAndCatch(fn)`
returns a record with a `null` value and a non-null error, and for every
callable that returns a (non-promise) value, it returns a record whose
`result` field is that value and whose `error` field is `null`.  The
embedding `tryAndCatch` is a total function into `TACOut`, so no
execution path throws. -/
theorem C1_safe_invoker (t v : JSVal) :
    tryAndCatch (.error t) none =
      ⟨false, none, some (normalizeError t), [], false, []⟩ ∧
    (tryAndCatch (.error t) none).error.isSome = true ∧
    tryAndCatch (.ok (.val v)) none = ⟨false, some v, none, [], false, []⟩ :=
  ⟨rfl, rfl, rfl⟩

/-- C3: when the main callable succeeds and the cleanup callback throws
(synchronously, or — in the awaited forms — via a rejected promise), the
returned result still has a `null` error and the unchanged success
value; the cleanup failure surfaces only on the warning side channel.
Covers the sync arm of `tryAndCatch`, its promise arm, and
`tryAndCatchAsync`. -/
theorem C3_cleanup_isolation (v ce : JSVal) :
    tryAndCatch (.ok (.val v)) (some (.error ce)) =
      ⟨false, some v, none, [ce], true, []⟩ ∧
    tryAndCatch (.ok (.prom (.ok v))) (some (.error ce)) =
      ⟨true, some v, none, [ce], true, []⟩ ∧
    tryAndCatchAsync (.ok v) (some (.error ce)) =
      ⟨true, some v, none, [ce], true, []⟩ ∧
    tryAndCatchAsync (.ok v) (some (.ok (.promRet (.error ce)))) =
      ⟨true, some v, none, [ce], true, []⟩ :=
  ⟨rfl, rfl, rfl, rfl⟩

/-- C4 counterexample: a thrown plain object that exposes
`message`/`name`/`stack` fields (so the claim asserts it is placed in
the error field with identity preserved) is instead replaced by a fresh
`Error` whose message is `"[object Object]"`, because the code tests
`instanceof Error`, not the presence of those fields. -/
theorem C4_counterexample :
    exposesErrorFields duckVal = true ∧
    lookupField [("message", "boom"), ("name", "Error"), ("stack", "s")]
      "message" = some "boom" ∧
    (tryAndCatch (.error duckVal) none).error =
      some ⟨0, "Error", "[object Object]", ""⟩ ∧
    (((tryAndCatch (.error duckVal) none).error.map JSError.message ==
      some "boom") = false) := by
  decide

/-- C4 (amended): a thrown value that is an `instanceof Error` is placed
in the returned error field as that exact object (same identity); every
other thrown value — including plain objects that merely expose
`message`/`name`/`stack` fields — yields a fresh error whose message is
the string conversion of the thrown value. -/
theorem C4_error_normalization (e : JSError) (v : JSVal)
    (hv : isErrorInstance v = false) :
    (tryAndCatch (.error (.errObj e)) none).error = some e ∧
    (tryAndCatch (.error v) none).error.map JSError.message =
      some (jsToString v) := by
  refine ⟨rfl, ?_⟩
  cases v <;> simp_all [tryAndCatch, normalizeError, isErrorInstance,
    runCleanupSync]

/-- Witness for C4: the amended claim applied to a thrown `Error`
instance and to a thrown string `"boom"`. -/
theorem C4_error_normalization_witness :
    (tryAndCatch (.error (.errObj ⟨7, "TypeError", "bad", "st"⟩)) none).error =
      some ⟨7, "TypeError", "bad", "st"⟩ ∧
    (tryAndCatch (.error (.str "boom")) none).error.map JSError.message =
      some "boom" :=
  C4_error_normalization ⟨7, "TypeError", "bad", "st"⟩ (.str "boom") rfl

/-- C7: the default retryability policy is exactly the union of the
network and timeout classifiers — as a boolean equation, together with
concrete evaluations showing each side of the union firing and a
non-network, non-timeout error being rejected. -/
theorem C7_isRetryable_is_union (e : JSError) :
    isRetryable e = (isNetworkError e || isTimeoutError e) ∧
    isRetryable ⟨0, "Error", "connection refused", ""⟩ = true ∧
    isRetryable ⟨0, "Error", "Operation timed out", ""⟩ = true ∧
    isRetryable ⟨0, "Error", "validation failed", ""⟩ = false :=
  ⟨rfl, by decide, by decide, by decide⟩

/-- Unfolding of a retry iteration whose attempt settles with a value:
the run ends with a success result after this one call. -/
theorem retryGo_ok (fn : Nat → AttemptOutcome) (opts : RetryOptions)
    (attempt r : Nat) (errors : List JSError) (clock : Nat) (v : JSVal)
    (hok : (attemptSettle opts fn attempt).1 = .ok v) :
    retryGo fn opts attempt (r + 1) errors clock =
      ⟨.ok ⟨some v, none, attempt + 1, errors,
        clock + (attemptSettle opts fn attempt).2⟩, 1, [], []⟩ := by
  simp only [retryGo, hok]

/-- Unfolding of a retry iteration whose attempt fails with retrying
declined (budget reached or predicate refuses): the run ends with a
failure result after this one call. -/
theorem retryGo_fail_stop (fn : Nat → AttemptOutcome) (opts : RetryOptions)
    (attempt r : Nat) (errors : List JSError) (clock : Nat) (t : JSVal)
    (he : (attemptSettle opts fn attempt).1 = .error t)
    (hstop : ¬((attempt : Int) < opts.maxRetries ∧
      shouldRetryEval opts (normalizeError t) = true)) :
    retryGo fn opts attempt (r + 1) errors clock =
      ⟨.ok ⟨none, some (normalizeError t), attempt + 1,
        errors ++ [normalizeError t],
        clock + (attemptSettle opts fn attempt).2⟩, 1, [], []⟩ := by
  simp only [retryGo, he, if_neg hstop]

/-- Unfolding of a retry iteration whose attempt fails with retrying
accepted: the engine waits and loops. -/
theorem retryGo_fail_retry (fn : Nat → AttemptOutcome) (opts : RetryOptions)
    (attempt r : Nat) (errors : List JSError) (clock : Nat) (t : JSVal)
    (he : (attemptSettle opts fn attempt).1 = .error t)
    (hgo : (attempt : Int) < opts.maxRetries ∧
      shouldRetryEval opts (normalizeError t) = true) :
    retryGo fn opts attempt (r + 1) errors clock =
      retryStep (delayOf opts attempt)
        (retryGo fn opts (attempt + 1) r (errors ++ [normalizeError t])
          (clock + (attemptSettle opts fn attempt).2 +
            (delayOf opts attempt).toNat)) := by
  simp only [retryGo, he, if_pos hgo]

/-- A run over an always-failing callable with the default retry
predicate and no per-attempt timeout consumes the whole remaining budget:
starting at `attempt` with `r + 1` iterations left and
`attempt + r = maxRetries`, it makes `r + 1` further calls and returns a
failure result carrying the last error and the accumulated history. -/
theorem retryGo_allFail (fn : Nat → AttemptOutcome) (ts : Nat → JSVal)
    (h : ∀ i, (fn i).res = .error (ts i))
    (m : Int) (d : Option (Sum Int (Nat → Int))) :
    ∀ (r attempt : Nat) (errors : List JSError) (clock : Nat),
      (attempt : Int) + (r : Int) = m →
      ∃ tt, retryGo fn ⟨m, d, none, none⟩ attempt (r + 1) errors clock =
        ⟨.ok ⟨none, some (normalizeError (ts (attempt + r))), attempt + r + 1,
            errors ++ errsFrom ts attempt (r + 1), tt⟩,
          r + 1, waitsFrom ⟨m, d, none, none⟩ attempt r,
          (waitsFrom ⟨m, d, none, none⟩ attempt r).map (fun x => max 0 x)⟩ := by
  intro r
  induction r with
  | zero =>
    intro attempt errors clock hinv
    have he : (attemptSettle ⟨m, d, none, none⟩ fn attempt).1 =
        .error (ts attempt) := by
      simp [attemptSettle, h attempt]
    have hstop : ¬(((attempt : Int) < m) ∧
        shouldRetryEval ⟨m, d, none, none⟩ (normalizeError (ts attempt)) = true) := by
      rintro ⟨h1, -⟩
      omega
    refine ⟨clock + (attemptSettle ⟨m, d, none, none⟩ fn attempt).2, ?_⟩
    rw [retryGo_fail_stop _ _ _ _ _ _ _ he hstop]
    simp [errsFrom, waitsFrom]
  | succ r ih =>
    intro attempt errors clock hinv
    have he : (attemptSettle ⟨m, d, none, none⟩ fn attempt).1 =
        .error (ts attempt) := by
      simp [attemptSettle, h attempt]
    have hgo : ((attempt : Int) < m) ∧
        shouldRetryEval ⟨m, d, none, none⟩ (normalizeError (ts attempt)) = true :=
      ⟨by push_cast at hinv; omega, rfl⟩
    obtain ⟨tt, ht⟩ := ih (attempt + 1) (errors ++ [normalizeError (ts attempt)])
      (clock + (attemptSettle ⟨m, d, none, none⟩ fn attempt).2 +
        (delayOf ⟨m, d, none, none⟩ attempt).toNat)
      (by push_cast at hinv ⊢; omega)
    refine ⟨tt, ?_⟩
    rw [retryGo_fail_retry _ _ _ _ _ _ _ he hgo, ht]
    have e1 : attempt + 1 + r = attempt + (r + 1) := by omega
    rw [e1]
    simp [retryStep, errsFrom, waitsFrom]

/-- C2: with the maximum-attempts setting `N` (realized in the source as
`maxRetries = N - 1`, since the initial try is not a retry — the code's
own tests use `maxRetries: 2` and expect `attempts === 3`), a callable
that fails on every attempt is called exactly `N` times and the engine
returns a failure outcome whose `attempts` field is `N`, with the `N`
failures in the error history. -/
theorem C2_retry_termination (N : Nat) (hN : 1 ≤ N)
    (fn : Nat → AttemptOutcome) (ts : Nat → JSVal)
    (h : ∀ i, (fn i).res = .error (ts i))
    (d : Option (Sum Int (Nat → Int))) :
    (tryAndCatchWithRetry fn ⟨(N : Int) - 1, d, none, none⟩).calls = N ∧
    ∃ tt, (tryAndCatchWithRetry fn ⟨(N : Int) - 1, d, none, none⟩).out =
      .ok ⟨none, some (normalizeError (ts (N - 1))), N,
        errsFrom ts 0 N, tt⟩ := by
  obtain ⟨r, hr⟩ : ∃ r, N = r + 1 := ⟨N - 1, by omega⟩
  subst hr
  have key : (((⟨((r + 1 : Nat) : Int) - 1, d, none, none⟩ :
      RetryOptions).maxRetries + 1).toNat) = r + 1 := by
    show ((((r + 1 : Nat) : Int) - 1 + 1).toNat) = r + 1
    omega
  obtain ⟨tt, ht⟩ := retryGo_allFail fn ts h (((r + 1 : Nat) : Int) - 1) d r 0 [] 0
    (by push_cast; omega)
  unfold tryAndCatchWithRetry
  rw [key, ht]
  refine ⟨rfl, ⟨tt, ?_⟩⟩
  simp

/-- Witness for C2: a callable that always throws the string `"x"` under
maximum-attempts setting 2 (`maxRetries = 1`) is called exactly twice and
fails with `attempts = 2`. -/
theorem C2_retry_termination_witness :
    (tryAndCatchWithRetry alwaysFailFn
      ⟨((2 : Nat) : Int) - 1, none, none, none⟩).calls = 2 ∧
    ∃ tt, (tryAndCatchWithRetry alwaysFailFn
        ⟨((2 : Nat) : Int) - 1, none, none, none⟩).out =
      .ok ⟨none, some (normalizeError (.str "x")), 2,
        errsFrom (fun _ => .str "x") 0 2, tt⟩ :=
  C2_retry_termination 2 (by norm_num) alwaysFailFn (fun _ => .str "x")
    (fun _ => rfl) none

/-- A run whose first `k` calls fail (each failure accepted by the retry
predicate and within the budget) and whose next call succeeds, with no
per-attempt timeout, returns a success result recording `k + 1` attempts
and the `k` failures in order. -/
theorem retryGo_failsThenOk (fn : Nat → AttemptOutcome) (ts : Nat → JSVal)
    (opts : RetryOptions) (hto : opts.timeout = none) (v : JSVal) :
    ∀ (k attempt r : Nat) (errors : List JSError) (clock : Nat),
      (∀ j, j < k → (fn (attempt + j)).res = .error (ts (attempt + j))) →
      (∀ j, j < k → shouldRetryEval opts (normalizeError (ts (attempt + j))) = true) →
      (∀ j, j < k → ((attempt + j : Nat) : Int) < opts.maxRetries) →
      ((fn (attempt + k)).res = .ok v) →
      k < r →
      ∃ tt, retryGo fn opts attempt r errors clock =
        ⟨.ok ⟨some v, none, attempt + k + 1, errors ++ errsFrom ts attempt k, tt⟩,
          k + 1, waitsFrom opts attempt k,
          (waitsFrom opts attempt k).map (fun x => max 0 x)⟩ := by
  intro k
  induction k with
  | zero =>
    intro attempt r errors clock hfail hacc hbud hok hr
    obtain ⟨r', rfl⟩ : ∃ r', r = r' + 1 := ⟨r - 1, by omega⟩
    have hok' : (attemptSettle opts fn attempt).1 = .ok v := by
      simpa [attemptSettle, hto] using hok
    refine ⟨clock + (attemptSettle opts fn attempt).2, ?_⟩
    rw [retryGo_ok _ _ _ _ _ _ _ hok']
    simp [errsFrom, waitsFrom]
  | succ k ih =>
    intro attempt r errors clock hfail hacc hbud hok hr
    obtain ⟨r', rfl⟩ : ∃ r', r = r' + 1 := ⟨r - 1, by omega⟩
    have he : (attemptSettle opts fn attempt).1 = .error (ts attempt) := by
      have h0 := hfail 0 (by omega)
      simpa [attemptSettle, hto] using h0
    have hgo : ((attempt : Int) < opts.maxRetries ∧
        shouldRetryEval opts (normalizeError (ts attempt)) = true) := by
      constructor
      · have hb := hbud 0 (by omega)
        simpa using hb
      · have ha := hacc 0 (by omega)
        simpa using ha
    have hfail' : ∀ j, j < k → (fn (attempt + 1 + j)).res =
        .error (ts (attempt + 1 + j)) := by
      intro j hj
      have hx := hfail (j + 1) (by omega)
      rwa [show attempt + (j + 1) = attempt + 1 + j by omega] at hx
    have hacc' : ∀ j, j < k →
        shouldRetryEval opts (normalizeError (ts (attempt + 1 + j))) = true := by
      intro j hj
      have hx := hacc (j + 1) (by omega)
      rwa [show attempt + (j + 1) = attempt + 1 + j by omega] at hx
    have hbud' : ∀ j, j < k → ((attempt + 1 + j : Nat) : Int) < opts.maxRetries := by
      intro j hj
      have hx := hbud (j + 1) (by omega)
      rwa [show attempt + (j + 1) = attempt + 1 + j by omega] at hx
    have hok' : (fn (attempt + 1 + k)).res = .ok v := by
      rwa [show attempt + (k + 1) = attempt + 1 + k by omega] at hok
    obtain ⟨tt, ht⟩ := ih (attempt + 1) r' (errors ++ [normalizeError (ts attempt)])
      (clock + (attemptSettle opts fn attempt).2 + (delayOf opts attempt).toNat)
      hfail' hacc' hbud' hok' (by omega)
    refine ⟨tt, ?_⟩
    rw [retryGo_fail_retry _ _ _ _ _ _ _ he hgo, ht]
    have e1 : attempt + 1 + k = attempt + (k + 1) := by omega
    rw [e1]
    simp [retryStep, errsFrom, waitsFrom]

/-- C6: a callable failing `k` times (each failure accepted by the retry
predicate, `k` within the attempt budget) and then succeeding yields a
success outcome with `attempts = k + 1`, a `null` error, the success
value, and exactly the `k` failures in order in the error history; and
the spec's concrete scenario — failures `"A"`, `"B"`, then `42`, with
`maxAttempts` 3 (`maxRetries = 2`) and delay 10 — returns value `42`,
`attempts = 3`, errors `["A", "B"]`, and total elapsed time at least 20
(two waits of 10). -/
theorem C6_retry_success_path (k : Nat) (v : JSVal)
    (fn : Nat → AttemptOutcome) (ts : Nat → JSVal) (opts : RetryOptions)
    (hto : opts.timeout = none)
    (hbudget : (k : Int) ≤ opts.maxRetries)
    (hfail : ∀ j, j < k → (fn j).res = .error (ts j))
    (hacc : ∀ j, j < k → shouldRetryEval opts (normalizeError (ts j)) = true)
    (hok : (fn k).res = .ok v) :
    ((tryAndCatchWithRetry fn opts).calls = k + 1 ∧
      (tryAndCatchWithRetry fn opts).reqWaits = waitsFrom opts 0 k ∧
      ∃ tt, (tryAndCatchWithRetry fn opts).out =
        .ok ⟨some v, none, k + 1, errsFrom ts 0 k, tt⟩) ∧
    (tryAndCatchWithRetry fnAB ⟨2, some (.inl 10), none, none⟩ =
      ⟨.ok ⟨some (.num 42), none, 3,
        [⟨0, "Error", "A", ""⟩, ⟨0, "Error", "B", ""⟩], 20⟩,
        3, [10, 10], [10, 10]⟩ ∧
      20 ≤ totalTimeOf (tryAndCatchWithRetry fnAB ⟨2, some (.inl 10), none, none⟩)) := by
  constructor
  · obtain ⟨tt, ht⟩ := retryGo_failsThenOk fn ts opts hto v k 0
      (opts.maxRetries + 1).toNat [] 0
      (by intro j hj; simpa using hfail j hj)
      (by intro j hj; simpa using hacc j hj)
      (by intro j hj; have := hbudget; simp only [Nat.zero_add]; omega)
      (by simpa using hok)
      (by omega)
    show (retryGo fn opts 0 (opts.maxRetries + 1).toNat [] 0).calls = k + 1 ∧ _
    rw [tryAndCatchWithRetry] at *
    rw [ht]
    refine ⟨rfl, rfl, tt, by simp⟩
  · constructor
    · decide
    · decide

/-- Witness for C6: the spec's concrete scenario instantiating the
general statement with `k = 2`. -/
theorem C6_retry_success_path_witness :
    ((tryAndCatchWithRetry fnAB ⟨2, some (.inl 10), none, none⟩).calls = 2 + 1 ∧
      (tryAndCatchWithRetry fnAB ⟨2, some (.inl 10), none, none⟩).reqWaits =
        waitsFrom ⟨2, some (.inl 10), none, none⟩ 0 2 ∧
      ∃ tt, (tryAndCatchWithRetry fnAB ⟨2, some (.inl 10), none, none⟩).out =
        .ok ⟨some (.num 42), none, 2 + 1,
          errsFrom (fun i => if i = 0 then .str "A" else .str "B") 0 2, tt⟩) ∧
    (tryAndCatchWithRetry fnAB ⟨2, some (.inl 10), none, none⟩ =
      ⟨.ok ⟨some (.num 42), none, 3,
        [⟨0, "Error", "A", ""⟩, ⟨0, "Error", "B", ""⟩], 20⟩,
        3, [10, 10], [10, 10]⟩ ∧
      20 ≤ totalTimeOf (tryAndCatchWithRetry fnAB ⟨2, some (.inl 10), none, none⟩)) :=
  C6_retry_success_path 2 (.num 42) fnAB
    (fun i => if i = 0 then .str "A" else .str "B")
    ⟨2, some (.inl 10), none, none⟩ rfl (by decide)
    (fun j hj => by
      match j with
      | 0 => rfl
      | 1 => rfl
      | j + 2 => exact absurd hj (by omega))
    (fun _ _ => rfl)
    rfl

/-- Every retry-loop run whose remaining budget is coherent with the
loop header (`attempt + remaining = maxRetries + 1`, at least one
iteration left) settles with a structured result: the fallthrough
`throw` is unreachable. -/
theorem retryGo_isOk (fn : Nat → AttemptOutcome) (opts : RetryOptions) :
    ∀ (r attempt : Nat) (errors : List JSError) (clock : Nat),
      ((attempt : Int) + (r : Int) = opts.maxRetries + 1) → 1 ≤ r →
      ∃ res, (retryGo fn opts attempt r errors clock).out = .ok res := by
  intro r
  induction r with
  | zero =>
    intro attempt errors clock hinv hr
    omega
  | succ r ih =>
    intro attempt errors clock hinv hr
    cases hs : (attemptSettle opts fn attempt).1 with
    | ok v =>
      rw [retryGo_ok _ _ _ _ _ _ _ hs]
      exact ⟨_, rfl⟩
    | error t =>
      by_cases hc : ((attempt : Int) < opts.maxRetries ∧
          shouldRetryEval opts (normalizeError t) = true)
      · have hlt := hc.1
        obtain ⟨res, hres⟩ := ih (attempt + 1)
          (errors ++ [normalizeError t])
          (clock + (attemptSettle opts fn attempt).2 + (delayOf opts attempt).toNat)
          (by push_cast at hinv ⊢; omega) (by omega)
        rw [retryGo_fail_retry _ _ _ _ _ _ _ hs hc]
        exact ⟨res, by simpa [retryStep] using hres⟩
      · rw [retryGo_fail_stop _ _ _ _ _ _ _ hs hc]
        exact ⟨_, rfl⟩

/-- C5 counterexample: the claim fails as stated for the lightweight
`withRetry` helper, which by design re-throws the last error once its
retries are exhausted (the returned promise rejects — an exception
escapes the retry boundary); `tryAndCatchWithRetry` itself also throws
`"Retry logic error"` when given a negative `maxRetries`. -/
theorem C5_counterexample :
    withRetry alwaysFailFn 3 1000 =
      ⟨.error ⟨0, "Error", "x", ""⟩, 4, [1000, 1000, 1000]⟩ ∧
    (tryAndCatchWithRetry alwaysFailFn ⟨-1, none, none, none⟩).out =
      .error retryLogicError := by
  decide

/-- C5 (amended): `tryAndCatchWithRetry` never lets an exception escape
for any callable and any configuration with a nonnegative `maxRetries` —
every such run settles with a structured result; the lightweight
`withRetry` helper, by contrast, deliberately re-throws the last error
when all attempts fail. -/
theorem C5_retry_no_escape (fn : Nat → AttemptOutcome) (opts : RetryOptions)
    (h : 0 ≤ opts.maxRetries) :
    ∃ res, (tryAndCatchWithRetry fn opts).out = .ok res :=
  retryGo_isOk fn opts (opts.maxRetries + 1).toNat 0 [] 0 (by omega) (by omega)

/-- Witness for C5: the amended claim applied to an always-failing
callable with `maxRetries = 0`. -/
theorem C5_retry_no_escape_witness :
    ∃ res, (tryAndCatchWithRetry alwaysFailFn ⟨0, none, none, none⟩).out = .ok res :=
  C5_retry_no_escape alwaysFailFn ⟨0, none, none, none⟩ (by decide)

/-- In every retry run the effective waits are exactly the requested
delays clamped at zero by the host timer. -/
theorem retryGo_eff_req (fn : Nat → AttemptOutcome) (opts : RetryOptions) :
    ∀ (r attempt : Nat) (errors : List JSError) (clock : Nat),
      (retryGo fn opts attempt r errors clock).effWaits =
        (retryGo fn opts attempt r errors clock).reqWaits.map (fun x => max 0 x) := by
  intro r
  induction r with
  | zero =>
    intro attempt errors clock
    rfl
  | succ r ih =>
    intro attempt errors clock
    cases hs : (attemptSettle opts fn attempt).1 with
    | ok v =>
      rw [retryGo_ok _ _ _ _ _ _ _ hs]
      rfl
    | error t =>
      by_cases hc : ((attempt : Int) < opts.maxRetries ∧
          shouldRetryEval opts (normalizeError t) = true)
      · rw [retryGo_fail_retry _ _ _ _ _ _ _ hs hc]
        simp [retryStep, ih]
      · rw [retryGo_fail_stop _ _ _ _ _ _ _ hs hc]
        rfl

/-- C9: for every callable and configuration, the wait actually
performed between attempts is the requested duration clamped at zero (the
engine hands the raw value to `setTimeout`, whose timer semantics clamp
negative delays), so no wait is ever negative; concretely, a delay
function returning `-5` produces a requested delay of `-5` and an
effective wait of `0`. -/
theorem C9_no_negative_wait (fn : Nat → AttemptOutcome) (opts : RetryOptions) :
    ((tryAndCatchWithRetry fn opts).effWaits =
      (tryAndCatchWithRetry fn opts).reqWaits.map (fun x => max 0 x) ∧
     (tryAndCatchWithRetry fn opts).effWaits.all (fun w => decide (0 ≤ w)) = true) ∧
    ((tryAndCatchWithRetry alwaysFailFn
        ⟨1, some (.inr fun _ => -5), none, none⟩).reqWaits = [-5] ∧
     (tryAndCatchWithRetry alwaysFailFn
        ⟨1, some (.inr fun _ => -5), none, none⟩).effWaits = [0]) := by
  have h1 : (tryAndCatchWithRetry fn opts).effWaits =
      (tryAndCatchWithRetry fn opts).reqWaits.map (fun x => max 0 x) :=
    retryGo_eff_req fn opts _ 0 [] 0
  refine ⟨⟨h1, ?_⟩, by decide, by decide⟩
  rw [h1]
  simp only [List.all_eq_true, List.mem_map, decide_eq_true_eq]
  rintro w ⟨d, hd, rfl⟩
  exact le_max_left 0 d

/-- C8 counterexample: for the source's exponential backoff, the jitter
is an additive uniform draw from `[0, 1000)` milliseconds, not `±25%` of
the capped exponential delay: at base 100, cap 30000, attempt 0 and a
random draw of `1/2` the produced delay is 600, which differs from the
un-jittered delay 100 by 500, far beyond 25; moreover with a negative
cap the result is negative, so the `never goes below zero` part also
needs a nonnegative cap. -/
theorem C8_counterexample :
    exponentialBackoff 100 30000 (1/2) 0 = 600 ∧
    min ((100 : ℚ) * 2 ^ 0) 30000 = 100 ∧
    (1/4 : ℚ) * min ((100 : ℚ) * 2 ^ 0) 30000 <
      |exponentialBackoff 100 30000 (1/2) 0 - min ((100 : ℚ) * 2 ^ 0) 30000| ∧
    exponentialBackoff 100 (-1) 0 0 < 0 := by
  norm_num [exponentialBackoff, abs]

/-- C8 (amended): the exponential backoff factory maps attempt `a` to
`min(base * 2 ^ a + jitter, max)` where the jitter is a uniform draw
from `[0, 1000)` milliseconds added before capping; for nonnegative
base, cap and draw the result never exceeds the cap and never goes below
zero. -/
theorem C8_exponential_backoff (b m r : ℚ) (a : Nat)
    (hb : 0 ≤ b) (hr0 : 0 ≤ r) (hr1 : r < 1) (hm : 0 ≤ m) :
    exponentialBackoff b m r a = min (b * 2 ^ a + r * 1000) m ∧
    exponentialBackoff b m r a ≤ m ∧
    0 ≤ exponentialBackoff b m r a ∧
    0 ≤ r * 1000 ∧ r * 1000 < 1000 := by
  have hj0 : (0 : ℚ) ≤ r * 1000 := mul_nonneg hr0 (by norm_num)
  have h2 : (0 : ℚ) ≤ b * 2 ^ a + r * 1000 :=
    add_nonneg (mul_nonneg hb (by positivity)) hj0
  exact ⟨rfl, min_le_right _ _, le_min h2 hm, hj0, by linarith⟩

/-- Witness for C8: the amended claim at the source's default base 1000
and cap 30000, attempt 0, random draw `1/2`. -/
theorem C8_exponential_backoff_witness :
    exponentialBackoff 1000 30000 (1/2) 0 =
      min ((1000 : ℚ) * 2 ^ 0 + (1/2) * 1000) 30000 ∧
    exponentialBackoff 1000 30000 (1/2) 0 ≤ 30000 ∧
    0 ≤ exponentialBackoff 1000 30000 (1/2) 0 ∧
    0 ≤ (1/2 : ℚ) * 1000 ∧ (1/2 : ℚ) * 1000 < 1000 :=
  C8_exponential_backoff 1000 30000 (1/2) 0 (by norm_num) (by norm_num)
    (by norm_num) (by norm_num)

/-- C10: for a synchronous callable with a cleanup callback that returns
a promise, `tryAndCatch` invokes the cleanup but hands back its record
synchronously without awaiting that promise: a later rejection of it is
not caught (it becomes an unhandled rejection) and does not alter the
returned record, while a synchronous throw from the cleanup is caught
and warned about. -/
theorem C10_sync_cleanup_fire_and_forget (v e ce : JSVal) :
    tryAndCatch (.ok (.val v)) (some (.ok (.promRet (.error e)))) =
      ⟨false, some v, none, [], true, [e]⟩ ∧
    tryAndCatch (.ok (.val v)) (some (.error ce)) =
      ⟨false, some v, none, [ce], true, []⟩ :=
  ⟨rfl, rfl⟩

end TryCatch
